import Mathlib

/-!
Shallow embedding of the user-management demo (src/test-files/cpp-test.cpp):
the `User` value object, the generic collection `UserCollection`, and the
`UserManager` that issues uint64 identifiers and creates users.
Machine integers are modelled as `Nat` with explicit reduction modulo 2^64
where the source uses `uint64_t` arithmetic (the atomic id counter).
-/

namespace UserManagement

/-- Modulus of C++ `uint64_t` arithmetic: `std::atomic<uint64_t>::fetch_add`
wraps modulo 2^64. -/
def UINT64_MOD : Nat := 2 ^ 64

/-- Mirrors `enum class UserRole` (cpp-test.cpp, lines 19-23). -/
inductive UserRole where
  | ADMIN
  | USER
  | GUEST
deriving DecidableEq, Repr

/-- Mirrors `enum class UserStatus` (cpp-test.cpp, lines 25-28). -/
inductive UserStatus where
  | ACTIVE
  | INACTIVE
  | SUSPENDED
deriving DecidableEq, Repr

/-- Mirrors class `User` (cpp-test.cpp, lines 37-142): the data fields.
The timestamp `created_at_` is modelled as a `Nat` supplied by the caller
in place of `std::chrono::system_clock::now()`; the per-object mutex has
no observable content in a sequential model. -/
structure User where
  id_ : Nat
  name_ : String
  email_ : String
  role_ : UserRole
  status_ : UserStatus
  created_at_ : Nat
deriving DecidableEq, Repr

/-- Mirrors the `User` constructor (cpp-test.cpp, lines 50-52): the status
is initialised to `ACTIVE`, the timestamp to the current time `now`. -/
def User.make (id : Nat) (name email : String) (role : UserRole) (now : Nat) : User :=
  { id_ := id, name_ := name, email_ := email, role_ := role,
    status_ := UserStatus.ACTIVE, created_at_ := now }

def User.getId (u : User) : Nat := u.id_

def User.getName (u : User) : String := u.name_

def User.getEmail (u : User) : String := u.email_

def User.getRole (u : User) : UserRole := u.role_

def User.getStatus (u : User) : UserStatus := u.status_

/-- Mirrors `User::isActive` (cpp-test.cpp, lines 119-121). -/
def User.isActive (u : User) : Bool := decide (u.status_ = UserStatus.ACTIVE)

/-- Mirrors the template class `UserCollection<T>` at `T = User`
(cpp-test.cpp, lines 147-204): a `std::vector` of users; the shared mutex
has no observable content in a sequential model. -/
structure UserCollection where
  users_ : List User
deriving DecidableEq, Repr

/-- Mirrors `UserCollection::addUser` (lines 159-167): `push_back`. -/
def UserCollection.addUser (c : UserCollection) (user : User) : UserCollection :=
  { users_ := c.users_ ++ [user] }

/-- Mirrors `UserCollection::findUser` (lines 170-178): `std::find_if`
from `begin()` over the vector, returning the first match or `nullopt`. -/
def UserCollection.findUser (c : UserCollection) (pred : User → Bool) : Option User :=
  c.users_.find? pred

/-- Mirrors `UserCollection::filterUsers` (lines 181-188): `std::copy_if`
over the vector in order into a fresh vector. -/
def UserCollection.filterUsers (c : UserCollection) (pred : User → Bool) : List User :=
  c.users_.filter pred

/-- Mirrors `UserCollection::size` (lines 198-201). -/
def UserCollection.size (c : UserCollection) : Nat := c.users_.length

/-- Mirrors `UserCollection::empty` (lines 203-206). -/
def UserCollection.isEmpty (c : UserCollection) : Bool := c.users_.isEmpty

/-- Mirrors class `UserManager` (cpp-test.cpp, lines 209-297): the user
collection, the atomic uint64 counter `next_id_` (initialised to 1), and
the opaque configuration map. -/
structure UserManager where
  users_ : UserCollection
  next_id_ : Nat
  config_ : List (String × String)
deriving DecidableEq, Repr

/-- Mirrors the `UserManager` constructor (lines 219-220) applied to an
empty configuration: empty collection, counter at 1. -/
def UserManager.init : UserManager :=
  { users_ := { users_ := [] }, next_id_ := 1, config_ := [] }

/-- Mirrors the body of the task launched by `UserManager::createUserAsync`
(lines 223-240), run to completion: `id = next_id_.fetch_add(1)` (uint64,
so the stored counter wraps modulo 2^64), construct the `User`, append a
copy into the collection, and hand the user back through the future. -/
def UserManager.createUserAsync (m : UserManager) (name email : String)
    (role : UserRole) (now : Nat) : User × UserManager :=
  let id := m.next_id_
  let user := User.make id name email role now
  (user,
    { m with
      users_ := m.users_.addUser user,
      next_id_ := (m.next_id_ + 1) % UINT64_MOD })

/-- Mirrors the C++ default argument `role = UserRole::USER` of
`createUserAsync` (line 226). -/
def UserManager.createUserAsyncDefaultRole (m : UserManager) (name email : String)
    (now : Nat) : User × UserManager :=
  m.createUserAsync name email UserRole.USER now

/-- Mirrors `UserManager::findUserById` (lines 243-247). -/
def UserManager.findUserById (m : UserManager) (id : Nat) : Option User :=
  m.users_.findUser (fun user => decide (user.getId = id))

/-- Mirrors `UserManager::getUsersByRole` (lines 250-254). -/
def UserManager.getUsersByRole (m : UserManager) (role : UserRole) : List User :=
  m.users_.filterUsers (fun user => decide (user.getRole = role))

/-- Mirrors `UserManager::getActiveUsers` (lines 257-261). -/
def UserManager.getActiveUsers (m : UserManager) : List User :=
  m.users_.filterUsers (fun user => user.isActive)

/-- Mirrors `struct UserStats` (lines 264-269); the `double` average is
modelled as a rational. -/
structure UserStats where
  total_users : Nat
  active_users : Nat
  admin_users : Nat
  avg_users_per_day : ℚ
deriving DecidableEq, Repr

/-- Mirrors `UserManager::getStatistics` (lines 271-281). -/
def UserManager.getStatistics (m : UserManager) : UserStats :=
  let active := m.getActiveUsers
  let admins := m.getUsersByRole UserRole.ADMIN
  { total_users := m.users_.size,
    active_users := active.length,
    admin_users := admins.length,
    avg_users_per_day := (m.users_.size : ℚ) / 30 }

/-- Input of one `createUserAsync` call: the three arguments plus the
clock value observed by the task. -/
structure CreateInput where
  name : String
  email : String
  role : UserRole
  now : Nat
deriving DecidableEq, Repr

/-- Runs a sequence of `createUserAsync` calls to completion in order,
collecting the users handed back through the futures. -/
def runCreates (m : UserManager) : List CreateInput → List User × UserManager
  | [] => ([], m)
  | inp :: rest =>
    let r := m.createUserAsync inp.name inp.email inp.role inp.now
    let rs := runCreates r.2 rest
    (r.1 :: rs.1, rs.2)

/-- Mirrors the failure semantics of the task body of `createUserAsync`
(lines 228-239): after the counter is consumed by `fetch_add`, the
construction of the record (`make_unique`) may fail from resource
exhaustion before the insertion; `push_back` offers the strong exception
guarantee, so a failed insertion also leaves the vector unchanged. The
flag selects whether the failure path is taken; the error propagates
through the future as an `Except.error`. -/
def UserManager.createUserFallible (m : UserManager) (name email : String)
    (role : UserRole) (now : Nat) (fails : Bool) : Except String User × UserManager :=
  let id := m.next_id_
  let m1 := { m with next_id_ := (m.next_id_ + 1) % UINT64_MOD }
  if fails then
    (Except.error "resource exhaustion", m1)
  else
    let user := User.make id name email role now
    (Except.ok user, { m1 with users_ := m1.users_.addUser user })

/-- A read-only query of `UserManager` (the `const` methods of lines
243-281). -/
inductive Query where
  | findById (id : Nat)
  | byRole (role : UserRole)
  | active
  | stats
deriving DecidableEq, Repr

/-- Result of a read-only query. -/
inductive QueryResult where
  | user (r : Option User)
  | users (r : List User)
  | stats (r : UserStats)
deriving DecidableEq, Repr

/-- Executes one `const` query against the manager, threading the state
explicitly: the `const` methods of `UserManager` take no lock in write
mode and leave the object unchanged. -/
def runQuery (m : UserManager) : Query → QueryResult × UserManager
  | Query.findById id => (QueryResult.user (m.findUserById id), m)
  | Query.byRole role => (QueryResult.users (m.getUsersByRole role), m)
  | Query.active => (QueryResult.users m.getActiveUsers, m)
  | Query.stats => (QueryResult.stats m.getStatistics, m)

/-! Helper lemmas shared by the claim theorems. -/

/-- The collection after a run of creations is the initial collection with
the created users appended in issuance order. -/
lemma runCreates_users_eq (inputs : List CreateInput) (m : UserManager) :
    (runCreates m inputs).2.users_.users_ = m.users_.users_ ++ (runCreates m inputs).1 := by
  induction inputs generalizing m with
  | nil => simp [runCreates]
  | cons inp rest ih =>
    simp only [runCreates]
    rw [ih]
    simp [UserManager.createUserAsync, UserCollection.addUser, List.append_assoc]

/-- The ids issued by a run of creations, in issuance order: the counter
value, then its uint64 successors modulo 2^64. -/
lemma runCreates_ids_mod (inputs : List CreateInput) (m : UserManager)
    (h : m.next_id_ < UINT64_MOD) :
    (runCreates m inputs).1.map User.getId =
      (List.range inputs.length).map (fun k => (m.next_id_ + k) % UINT64_MOD) := by
  induction inputs generalizing m with
  | nil => simp [runCreates]
  | cons inp rest ih =>
    have hM : 0 < UINT64_MOD := Nat.two_pow_pos 64
    have h1 : (m.next_id_ + 1) % UINT64_MOD < UINT64_MOD := Nat.mod_lt _ hM
    simp only [runCreates, UserManager.createUserAsync, List.length_cons, List.map_cons]
    rw [ih _ h1, List.range_succ_eq_map, List.map_cons, List.map_map]
    congr 1
    · simp [User.make, User.getId, Nat.mod_eq_of_lt h]
    · refine List.map_congr_left (fun k hk => ?_)
      simp only [Function.comp]
      rw [Nat.mod_add_mod]
      congr 1
      omega

/-! Theorems settling the claims. -/

/-- C1 (amended): for every sequence of N completed createUser calls on a
single fresh UserManager with N < 2^64, the assigned ids are strictly
increasing in issuance order, and the set of assigned ids is exactly the
integers 1..N, with no duplicates and no gaps. -/
theorem createUserAsync_ids_exact (inputs : List CreateInput)
    (h : inputs.length < UINT64_MOD) :
    List.Pairwise (fun a b => a < b)
      ((runCreates UserManager.init inputs).1.map User.getId) ∧
    (∀ i : Nat, i ∈ (runCreates UserManager.init inputs).1.map User.getId ↔
      1 ≤ i ∧ i ≤ inputs.length) := by
  have h1 : UserManager.init.next_id_ < UINT64_MOD := by
    show (1 : Nat) < UINT64_MOD
    norm_num [UINT64_MOD]
  have hplain : (runCreates UserManager.init inputs).1.map User.getId =
      (List.range inputs.length).map (fun k => 1 + k) := by
    rw [runCreates_ids_mod inputs UserManager.init h1]
    refine List.map_congr_left (fun k hk => ?_)
    have hkn : k < inputs.length := List.mem_range.mp hk
    show (1 + k) % UINT64_MOD = 1 + k
    exact Nat.mod_eq_of_lt (by omega)
  rw [hplain]
  constructor
  · exact (List.pairwise_lt_range inputs.length).map (fun k => 1 + k)
      (fun a b hab => by
        show 1 + a < 1 + b
        omega)
  · intro i
    simp only [List.mem_map, List.mem_range]
    constructor
    · rintro ⟨k, hk, rfl⟩
      omega
    · intro hi
      exact ⟨i - 1, by omega, by omega⟩

/-- C1 (counterexample): the uint64 id counter wraps, so the claim fails
as stated for N = 2^64 completed calls on a fresh UserManager: id 0 is
issued on the last call, and 0 is outside the range 1..N. -/
theorem createUserAsync_ids_wraparound :
    ¬ (List.Pairwise (fun a b => a < b)
        ((runCreates UserManager.init (List.replicate UINT64_MOD
          (⟨"Alice Johnson", "alice@example.com", UserRole.ADMIN, 0⟩ :
            CreateInput))).1.map User.getId) ∧
      (∀ i : Nat, i ∈ (runCreates UserManager.init (List.replicate UINT64_MOD
          (⟨"Alice Johnson", "alice@example.com", UserRole.ADMIN, 0⟩ :
            CreateInput))).1.map User.getId ↔
        1 ≤ i ∧ i ≤ (List.replicate UINT64_MOD
          (⟨"Alice Johnson", "alice@example.com", UserRole.ADMIN, 0⟩ :
            CreateInput)).length)) := by
  rintro ⟨-, hmem⟩
  have hM : 0 < UINT64_MOD := Nat.two_pow_pos 64
  have h1 : UserManager.init.next_id_ < UINT64_MOD := by
    show (1 : Nat) < UINT64_MOD
    norm_num [UINT64_MOD]
  have hzero : (0 : Nat) ∈ (runCreates UserManager.init (List.replicate UINT64_MOD
      (⟨"Alice Johnson", "alice@example.com", UserRole.ADMIN, 0⟩ :
        CreateInput))).1.map User.getId := by
    rw [runCreates_ids_mod _ UserManager.init h1, List.length_replicate]
    refine List.mem_map.mpr ⟨UINT64_MOD - 1, List.mem_range.mpr (by omega), ?_⟩
    show (1 + (UINT64_MOD - 1)) % UINT64_MOD = 0
    have hsum : 1 + (UINT64_MOD - 1) = UINT64_MOD := by omega
    rw [hsum, Nat.mod_self]
  have := (hmem 0).mp hzero
  omega

/-- C1 (witness): the amended theorem applied to a concrete run of three
completed creations. -/
theorem createUserAsync_ids_exact_witness :
    ([(⟨"Alice Johnson", "alice@example.com", UserRole.ADMIN, 0⟩ : CreateInput),
      ⟨"Bob Smith", "bob@example.com", UserRole.USER, 1⟩,
      ⟨"Carol Brown", "carol@example.com", UserRole.USER, 2⟩] : List CreateInput).length
        < UINT64_MOD ∧
    (List.Pairwise (fun a b => a < b)
      ((runCreates UserManager.init
        [⟨"Alice Johnson", "alice@example.com", UserRole.ADMIN, 0⟩,
         ⟨"Bob Smith", "bob@example.com", UserRole.USER, 1⟩,
         ⟨"Carol Brown", "carol@example.com", UserRole.USER, 2⟩]).1.map User.getId) ∧
    (∀ i : Nat, i ∈ (runCreates UserManager.init
        [⟨"Alice Johnson", "alice@example.com", UserRole.ADMIN, 0⟩,
         ⟨"Bob Smith", "bob@example.com", UserRole.USER, 1⟩,
         ⟨"Carol Brown", "carol@example.com", UserRole.USER, 2⟩]).1.map User.getId ↔
      1 ≤ i ∧ i ≤ ([(⟨"Alice Johnson", "alice@example.com", UserRole.ADMIN, 0⟩ :
          CreateInput),
        ⟨"Bob Smith", "bob@example.com", UserRole.USER, 1⟩,
        ⟨"Carol Brown", "carol@example.com", UserRole.USER, 2⟩] :
          List CreateInput).length)) :=
  ⟨by norm_num [UINT64_MOD], createUserAsync_ids_exact _ (by norm_num [UINT64_MOD])⟩

/-- C2: findUserById returns a record exactly when some prior completed
createUser call on the fresh manager was assigned that id; and on the
fresh (empty) manager, findUserById 999 returns none. -/
theorem findUserById_iff_created (inputs : List CreateInput) (id : Nat) :
    (((runCreates UserManager.init inputs).2.findUserById id).isSome = true ↔
      id ∈ (runCreates UserManager.init inputs).1.map User.getId) ∧
    UserManager.init.findUserById 999 = none := by
  constructor
  · rw [UserManager.findUserById, UserCollection.findUser, List.find?_isSome,
      runCreates_users_eq inputs UserManager.init]
    simp [List.mem_map, User.getId, UserManager.init]
  · rfl

/-- C2 (witness): after one completed creation, id 1 is found. -/
theorem findUserById_iff_created_witness :
    (((runCreates UserManager.init
        [⟨"Alice Johnson", "alice@example.com", UserRole.ADMIN, 0⟩]).2.findUserById 1).isSome
      = true) :=
  (findUserById_iff_created
    [⟨"Alice Johnson", "alice@example.com", UserRole.ADMIN, 0⟩] 1).1.mpr (by decide)

/-- C3: statistics report the store size as total, the count of ACTIVE
records as active, the count of ADMIN records as admins, and total
divided by the fixed constant 30 as the average per day. -/
theorem getStatistics_spec (m : UserManager) :
    (m.getStatistics).total_users = m.users_.size ∧
    (m.getStatistics).active_users =
      m.users_.users_.countP (fun u => decide (u.status_ = UserStatus.ACTIVE)) ∧
    (m.getStatistics).admin_users =
      m.users_.users_.countP (fun u => decide (u.role_ = UserRole.ADMIN)) ∧
    (m.getStatistics).avg_users_per_day = (m.users_.size : ℚ) / 30 := by
  refine ⟨rfl, ?_, ?_, rfl⟩
  · rw [List.countP_eq_length_filter]
    rfl
  · rw [List.countP_eq_length_filter]
    rfl

/-- C4: filterUsers returns exactly the stored records satisfying the
predicate, as a sublist of the store (so in insertion order). -/
theorem filterUsers_spec (c : UserCollection) (pred : User → Bool) :
    List.Sublist (c.filterUsers pred) c.users_ ∧
    (∀ u : User, u ∈ c.filterUsers pred ↔ (u ∈ c.users_ ∧ pred u = true)) :=
  ⟨List.filter_sublist _, fun _ => List.mem_filter⟩

/-- C4 (witness): a concrete active record is kept by the active filter. -/
theorem filterUsers_spec_witness :
    User.make 1 "Alice" "a@x.com" UserRole.ADMIN 0 ∈
      (UserCollection.mk [User.make 1 "Alice" "a@x.com" UserRole.ADMIN 0]).filterUsers
        (fun u => u.isActive) :=
  ((filterUsers_spec (UserCollection.mk [User.make 1 "Alice" "a@x.com" UserRole.ADMIN 0])
      (fun u => u.isActive)).2 (User.make 1 "Alice" "a@x.com" UserRole.ADMIN 0)).mpr
    (by decide)

/-- C5: findUser scans in insertion order: a returned record satisfies the
predicate and everything stored before it fails the predicate; and it
returns none exactly when no stored record satisfies the predicate. The
embedding of findUser is a pure function of the collection, so the store
is left unchanged. -/
theorem findUser_first_match (c : UserCollection) (pred : User → Bool) :
    (∀ u : User, c.findUser pred = some u →
      pred u = true ∧ ∃ l1 l2, c.users_ = l1 ++ u :: l2 ∧ ∀ v ∈ l1, pred v = false) ∧
    (c.findUser pred = none ↔ ∀ u ∈ c.users_, pred u = false) := by
  constructor
  · intro u hu
    rw [UserCollection.findUser, List.find?_eq_some] at hu
    obtain ⟨hp, l1, l2, hsplit, hfail⟩ := hu
    exact ⟨hp, l1, l2, hsplit, fun v hv => by simpa using hfail v hv⟩
  · rw [UserCollection.findUser, List.find?_eq_none]
    simp

/-- C5 (witness): on a concrete singleton store the returned record
satisfies the predicate and has no predecessor. -/
theorem findUser_first_match_witness :
    (fun u => u.isActive) (User.make 1 "Alice" "a@x.com" UserRole.ADMIN 0) = true ∧
    ∃ l1 l2,
      (UserCollection.mk [User.make 1 "Alice" "a@x.com" UserRole.ADMIN 0]).users_ =
        l1 ++ User.make 1 "Alice" "a@x.com" UserRole.ADMIN 0 :: l2 ∧
      ∀ v ∈ l1, (fun u => u.isActive) v = false :=
  (findUser_first_match (UserCollection.mk [User.make 1 "Alice" "a@x.com" UserRole.ADMIN 0])
    (fun u => u.isActive)).1 (User.make 1 "Alice" "a@x.com" UserRole.ADMIN 0) (by decide)

/-- C7: createUserAsync constructs the record with status ACTIVE and the
given name, email and role (the role argument defaults to USER), assigns
it the current counter value as id, appends it to the store, and the
record is then found by findUserById. -/
theorem createUserAsync_spec (m : UserManager) (name email : String)
    (role : UserRole) (now : Nat) :
    (m.createUserAsync name email role now).1.getStatus = UserStatus.ACTIVE ∧
    (m.createUserAsync name email role now).1.getName = name ∧
    (m.createUserAsync name email role now).1.getEmail = email ∧
    (m.createUserAsync name email role now).1.getRole = role ∧
    (m.createUserAsync name email role now).1.getId = m.next_id_ ∧
    (m.createUserAsync name email role now).2.users_.users_ =
      m.users_.users_ ++ [(m.createUserAsync name email role now).1] ∧
    m.createUserAsyncDefaultRole name email now =
      m.createUserAsync name email UserRole.USER now ∧
    ((m.createUserAsync name email role now).2.findUserById
      ((m.createUserAsync name email role now).1.getId)).isSome = true := by
  refine ⟨rfl, rfl, rfl, rfl, rfl, rfl, rfl, ?_⟩
  have hmem : (m.createUserAsync name email role now).1 ∈
      (m.createUserAsync name email role now).2.users_.users_ := by
    show (m.createUserAsync name email role now).1 ∈
      m.users_.users_ ++ [(m.createUserAsync name email role now).1]
    simp
  rw [UserManager.findUserById, UserCollection.findUser, List.find?_isSome]
  exact ⟨(m.createUserAsync name email role now).1, hmem, by simp⟩

/-- C8: when the creation task fails before the insertion, the error
propagates through the future and the store is unchanged; when it
succeeds, the record is fully inserted at the end of the store. -/
theorem createUserFallible_atomic (m : UserManager) (name email : String)
    (role : UserRole) (now : Nat) :
    (m.createUserFallible name email role now true).1 =
      Except.error "resource exhaustion" ∧
    (m.createUserFallible name email role now true).2.users_ = m.users_ ∧
    (m.createUserFallible name email role now false).1 =
      Except.ok (User.make m.next_id_ name email role now) ∧
    (m.createUserFallible name email role now false).2.users_.users_ =
      m.users_.users_ ++ [User.make m.next_id_ name email role now] :=
  ⟨rfl, rfl, rfl, rfl⟩

/-- C9: the read-only queries leave the manager unchanged, so repeating a
query with no intervening write returns the identical result. -/
theorem queries_idempotent (m : UserManager) (q : Query) :
    (runQuery m q).2 = m ∧ runQuery (runQuery m q).2 q = runQuery m q := by
  cases q <;> exact ⟨rfl, rfl⟩

/-- Auxiliary: the first match of a scan is the head of the filtered list. -/
lemma find?_eq_head?_filter {α : Type _} (l : List α) (p : α → Bool) :
    l.find? p = (l.filter p).head? := by
  induction l with
  | nil => rfl
  | cons a t ih =>
    cases hpa : p a with
    | true => rw [List.find?_cons_of_pos _ hpa, List.filter_cons_of_pos hpa, List.head?_cons]
    | false =>
      rw [List.find?_cons_of_neg _ (by simp [hpa]), List.filter_cons_of_neg (by simp [hpa]), ih]

/-- C10: findUser agrees with filterUsers: its result is the head of the
filtered list, and it is none exactly when the filtered list is empty. -/
theorem findUser_head_filterUsers (c : UserCollection) (pred : User → Bool) :
    c.findUser pred = (c.filterUsers pred).head? ∧
    (c.findUser pred = none ↔ c.filterUsers pred = []) := by
  refine ⟨find?_eq_head?_filter c.users_ pred, ?_⟩
  rw [show c.findUser pred = (c.filterUsers pred).head? from
    find?_eq_head?_filter c.users_ pred]
  exact List.head?_eq_none_iff

/-- C10 (witness): agreement on a concrete singleton store. -/
theorem findUser_head_filterUsers_witness :
    (UserCollection.mk [User.make 1 "Alice" "a@x.com" UserRole.ADMIN 0]).findUser
        (fun u => u.isActive) =
      ((UserCollection.mk [User.make 1 "Alice" "a@x.com" UserRole.ADMIN 0]).filterUsers
        (fun u => u.isActive)).head? :=
  (findUser_head_filterUsers (UserCollection.mk [User.make 1 "Alice" "a@x.com" UserRole.ADMIN 0])
    (fun u => u.isActive)).1

end UserManagement
